import Mathlib

/-!
Verification of the `ic_database` repository's browser client
(`src/static/js/main.js`) and, where the server-side pipeline is absent from
the sources, of models taken from the specification.

The file `main.js` contains two concatenated versions of the client:
version 1 (lines 1-459) and version 2 (lines 460-823).  Both are embedded
below; definitions carry a `1`/`2` suffix where the versions differ and are
shared where they coincide textually.
-/

namespace ICDB

/-! Data received from a `/api/task/{id}` status response (`data` in
`startPolling`).  `details` is the empty string when the JSON field is
absent or empty (both are falsy in `if (data.details)`); `search_ready`
is `false` when the flag is absent. -/

structure TaskData where
  progress : Int
  message : String
  details : String
  status : String
  search_ready : Bool
deriving DecidableEq

/-- The observable state of one task element in the sidebar, as written by
`createTaskElement` and `updateTaskUI`: the rendered progress-bar width and
percent text (the raw CSS/text strings), the inline fill color (empty when
never set), the status message, the details line, whether the cancel button
is still in the DOM, and whether a removal of the whole element has been
scheduled via `setTimeout`. -/
structure TaskEl where
  fillWidth : String
  fillColor : String
  msg : String
  percentText : String
  details : String
  cancelBtn : Bool
  removalScheduled : Bool
deriving DecidableEq

/-- The element produced by `createTaskElement` (both versions, lines
170-189 and 578-597): width `0%`, no inline color, message `等待中...`,
percent text `0%`, empty details, cancel button present. -/
def createTaskElement : TaskEl :=
  { fillWidth := "0%", fillColor := "", msg := "等待中...", percentText := "0%",
    details := "", cancelBtn := true, removalScheduled := false }

/-- Version-1 `updateTaskUI` (lines 191-235) applied to an existing task
element: writes `${data.progress}%` as bar width and percent text, the
message and (when truthy) the details; on `completed` turns the bar green,
overwrites the message with `已完成`, removes the cancel button and
schedules removal of the element; on `error` turns the bar red and removes
the button; on `cancelled` turns the bar grey, overwrites the message with
`已取消`, removes the button and schedules removal. -/
def applyTaskData1 (e : TaskEl) (d : TaskData) : TaskEl :=
  let e1 : TaskEl :=
    { e with
      fillWidth := toString d.progress ++ "%",
      msg := d.message,
      percentText := toString d.progress ++ "%",
      details := if d.details != "" then d.details else e.details }
  if d.status == "completed" then
    { e1 with fillColor := "#10b981", msg := "已完成", cancelBtn := false,
              removalScheduled := true }
  else if d.status == "error" then
    { e1 with fillColor := "#ef4444", cancelBtn := false }
  else if d.status == "cancelled" then
    { e1 with fillColor := "#94a3b8", msg := "已取消", cancelBtn := false,
              removalScheduled := true }
  else e1

/-- Version-2 `updateTaskUI` (lines 599-626): same verbatim rendering of
progress, message and details; on `completed` turns the bar green and
removes the cancel button (its `setTimeout` body is commented out); on
`error` or `cancelled` turns the bar red and removes the button.  It never
overwrites the message and never schedules removal of the element. -/
def applyTaskData2 (e : TaskEl) (d : TaskData) : TaskEl :=
  let e1 : TaskEl :=
    { e with
      fillWidth := toString d.progress ++ "%",
      msg := d.message,
      percentText := toString d.progress ++ "%",
      details := if d.details != "" then d.details else e.details }
  if d.status == "completed" then
    { e1 with fillColor := "#10b981", cancelBtn := false }
  else if d.status == "error" || d.status == "cancelled" then
    { e1 with fillColor := "#ef4444", cancelBtn := false }
  else e1

/-- Wrapper with the `document.getElementById` guard: when the element is
gone `updateTaskUI` does nothing. -/
def updateTaskUI1 (el : Option TaskEl) (d : TaskData) : Option TaskEl :=
  el.map (fun e => applyTaskData1 e d)

/-- Version-2 wrapper with the same guard. -/
def updateTaskUI2 (el : Option TaskEl) (d : TaskData) : Option TaskEl :=
  el.map (fun e => applyTaskData2 e d)

/-- Per-task client polling state: `entry` is `pollingIntervals[taskId]`
(the stored interval id, `none` when the key is absent), `timerActive`
records whether the interval timer is still scheduled (cleared by
`clearInterval`), and `el` is the task's sidebar element. -/
structure PollState where
  entry : Option Nat
  timerActive : Bool
  el : Option TaskEl
deriving DecidableEq

/-- JavaScript truthiness of `pollingIntervals[taskId]`: absent keys are
`undefined` (falsy) and interval ids are numbers, falsy only at `0`. -/
def entryTruthy : Option Nat → Bool
  | none => false
  | some n => n != 0

/-- The guard and registration of `startPolling` (identical in both
versions, lines 237-240 and 628-631): a no-op when the map already holds a
truthy entry for the task, otherwise it stores a fresh interval id and
schedules the timer.  Browsers allocate interval ids starting at 1. -/
def startPolling (fresh : Nat) (s : PollState) : PollState :=
  if entryTruthy s.entry then s
  else { s with entry := some fresh, timerActive := true }

/-- One `/api/task/{id}` response as observed by the poll callback:
`ok` is `res.ok`, `data` the parsed JSON body. -/
structure PollResp where
  ok : Bool
  data : TaskData
deriving DecidableEq

/-- The terminal-status test of both poll callbacks
(`data.status === 'completed' || data.status === 'error' ||
data.status === 'cancelled'`). -/
def isTerminal (st : String) : Bool :=
  st == "completed" || st == "error" || st == "cancelled"

/-- One firing of the version-1 poll callback (lines 240-284) on a
response.  A non-ok response clears the interval but leaves the map entry
in place.  On an ok response the UI is updated; then, when
`data.search_ready` is truthy, line 254 reads the identifier
`taskIdToReadyState`, which is declared nowhere in version 1, so a
`ReferenceError` is thrown and swallowed by the surrounding `catch`,
skipping the terminal-status check; otherwise a terminal status clears the
interval and deletes the map entry. -/
def pollTick1 (s : PollState) (r : PollResp) : PollState :=
  if s.timerActive = false then s
  else if r.ok = false then { s with timerActive := false }
  else
    let s1 : PollState := { s with el := updateTaskUI1 s.el r.data }
    if r.data.search_ready then s1
    else if isTerminal r.data.status then { s1 with timerActive := false, entry := none }
    else s1

/-- One firing of the version-2 poll callback (lines 631-648): the same
non-ok handling, the UI update, and the terminal-status stop, with no
`search_ready` code. -/
def pollTick2 (s : PollState) (r : PollResp) : PollState :=
  if s.timerActive = false then s
  else if r.ok = false then { s with timerActive := false }
  else
    let s1 : PollState := { s with el := updateTaskUI2 s.el r.data }
    if isTerminal r.data.status then { s1 with timerActive := false, entry := none }
    else s1

/-- Number of `/api/task/{id}` requests the client issues while the given
stream of responses is available: each timer firing issues one fetch, and
firings happen only while the interval timer is scheduled. -/
def requestsIssued (tick : PollState → PollResp → PollState) (s : PollState) :
    List PollResp → Nat
  | [] => 0
  | r :: rs => if s.timerActive then 1 + requestsIssued tick (tick s r) rs else 0

/-- An HTTP request issued by the client. -/
structure Request where
  method : String
  url : String
deriving DecidableEq

/-- The `cancelTask` function (identical in both versions, lines 287-294
and 651-658): it performs a single `fetch` POST to
`/api/task/{taskId}/cancel` and touches nothing else; its comment notes
that the UI update happens on the next poll. -/
def cancelTask (taskId : String) (s : PollState) : Request × PollState :=
  ({ method := "POST", url := "/api/task/" ++ taskId ++ "/cancel" }, s)

/-! File upload handling. -/

/-- A member of the `FileList` passed to `handleFiles`; only its MIME
`type` is inspected. -/
structure JSFile where
  ftype : String
deriving DecidableEq

/-- Outcome of `handleFiles`: the list of files appended to the
`/api/upload` request when one is sent, and whether the
`请选择 PDF 文件` alert fired. -/
structure HandleResult where
  uploaded : Option (List JSFile)
  alerted : Bool
deriving DecidableEq

/-- The `handleFiles` function (identical in both versions, lines 131-167
and 539-575): an empty selection returns at once; otherwise the files with
MIME type `application/pdf` are appended to the form data; when none
qualifies the user is alerted and no request is sent; otherwise the form
data is POSTed to `/api/upload`. -/
def handleFiles (files : List JSFile) : HandleResult :=
  if files.length = 0 then { uploaded := none, alerted := false }
  else
    let pdfs := files.filter (fun f => f.ftype == "application/pdf")
    if pdfs.isEmpty then { uploaded := none, alerted := true }
    else { uploaded := some pdfs, alerted := false }

/-! Chat answer rendering. -/

/-- One element of `data.sources` in a `/api/chat` response: file name,
page (absent or any number; `0` and `null` are falsy in `src.page ? ... : ''`)
and the score, which the client only uses in commented-out markup. -/
structure Source where
  file_name : String
  page : Option Int
  score : Int
deriving DecidableEq

/-- What the client shows for one rendered source inside the
`sources-list` block: the file name after `split('/').pop()` and the page
label (`P{n}` when the page is truthy, the empty string otherwise). -/
structure RenderedSource where
  filenameShown : String
  pageShown : String
deriving DecidableEq

/-- A rendered chat message: the answer markup and, when present, the list
of rendered sources. -/
structure RenderedMessage where
  answerShown : String
  sourcesShown : Option (List RenderedSource)
deriving DecidableEq

/-- The external `marked.parse` markdown renderer, out of scope for the
repository; modelled as the content-preserving identity on the answer
text. -/
def marked_parse (s : String) : String := s

/-- The `src.file_name.split('/').pop()` computation. -/
def basename (p : String) : String :=
  match (p.splitOn "/").getLast? with
  | some s => s
  | none => p

/-- Rendering of a single source item (lines 346-353 and 710-717):
`pageInfo` is `P${src.page}` when `src.page` is truthy and the empty
string otherwise; the shown name is the basename of `file_name`. -/
def renderSource (src : Source) : RenderedSource :=
  { filenameShown := basename src.file_name,
    pageShown :=
      match src.page with
      | some p => if p != 0 then "P" ++ toString p else ""
      | none => "" }

/-- The `addMessage` function (identical in both versions, lines 333-366
and 697-730): the answer text is rendered through `marked.parse`; when the
source list is non-empty a `sources-list` block is appended holding the
first three sources (`sources.slice(0, 3)`). -/
def addMessage (text : String) (sources : List Source) : RenderedMessage :=
  { answerShown := marked_parse text,
    sourcesShown :=
      if sources.length > 0 then some ((sources.take 3).map renderSource)
      else none }

/-! Server-side pipeline models.  The repository's server code (`server.py`,
`core/`, `agents/`) is not among the provided sources; the definitions
below are modelled from the specification, as their doc comments state. -/

/-- Modelled from the spec: the Task Orchestrator (server-side, absent from
src/) records chunk completions, which "may complete out of order" within a
batch, and reports progress as `completed_chunks / total_chunks`.  The set
of completed chunk ids only grows as completion events are recorded. -/
structure OrchTask where
  total : Nat
  completedChunks : List Nat
deriving DecidableEq

/-- Modelled from the spec: recording that chunk `c` finished extraction;
recording the same chunk again changes nothing. -/
def recordCompletion (t : OrchTask) (c : Nat) : OrchTask :=
  if c ∈ t.completedChunks then t
  else { t with completedChunks := c :: t.completedChunks }

/-- Modelled from the spec: the progress percentage a `get-task-status`
poll reports, `completed_chunks / total_chunks` scaled to 0-100. -/
def progressOf (t : OrchTask) : Nat :=
  if t.total = 0 then 0 else t.completedChunks.length * 100 / t.total

/-- Folding a sequence of chunk-completion events (in the arbitrary order
in which extraction calls finish) into the task. -/
def runEvents (t : OrchTask) : List Nat → OrchTask
  | [] => t
  | c :: cs => runEvents (recordCompletion t c) cs

/-! The graph/vector store and the Writer, modelled from the spec. -/

/-- A canonical entity key: `(canonical name, type)`. -/
abbrev EKey := String × String

/-- A canonical relation key: `(source entity, relation type, target entity)`. -/
abbrev Triple := EKey × String × EKey

/-- Modelled from the spec: an Entity record in the graph store, with its
canonical name, its type and its provenance set of source chunk ids. -/
structure Entity where
  name : String
  etype : String
  provenance : List Nat
deriving DecidableEq

/-- Modelled from the spec: a Relation record — a directed edge with a
relation-type label, a corroboration count and a provenance set of source
chunk ids. -/
structure Relation where
  src : EKey
  rtype : String
  tgt : EKey
  corroboration : Nat
  provenance : List Nat
deriving DecidableEq

/-- Modelled from the spec: a vector point, upserted keyed by chunk id, so
its sole provenance is that one chunk. -/
structure VecPoint where
  chunkId : Nat
deriving DecidableEq

/-- Modelled from the spec: the two persistent stores the Writer owns. -/
structure Store where
  entities : List Entity
  relations : List Relation
  vectors : List VecPoint
deriving DecidableEq

/-- Modelled from the spec: entity-name canonicalization — "name is
lower-cased, whitespace-collapsed, then matched ... by exact
canonical-name equality". -/
def canonicalName (s : String) : String :=
  " ".intercalate ((s.toLower.split Char.isWhitespace).filter (fun w => w ≠ ""))

/-- The canonical key of a raw `(name, type)` pair. -/
def canonKey (p : String × String) : EKey := (canonicalName p.1, p.2)

/-- The canonical form of a raw extracted triple. -/
def canonTriple (t : Triple) : Triple :=
  ((canonicalName t.1.1, t.1.2), t.2.1, (canonicalName t.2.2.1, t.2.2.2))

/-- The key of a stored entity. -/
def ekeyOf (e : Entity) : EKey := (e.name, e.etype)

/-- The key of a stored relation. -/
def rkeyOf (r : Relation) : Triple := (r.src, r.rtype, r.tgt)

/-- Appending a chunk id to a provenance set (no duplicate ids). -/
def addProv (cid : Nat) (prov : List Nat) : List Nat :=
  if cid ∈ prov then prov else prov ++ [cid]

/-- Modelled from the spec: the Writer's entity upsert, keyed by the
canonical `(name, type)` pair — if a matching Entity exists, the chunk id
is added to its provenance set; otherwise a new Entity is created. -/
def upsertEntity (cid : Nat) (k : EKey) : List Entity → List Entity
  | [] => [{ name := k.1, etype := k.2, provenance := [cid] }]
  | e :: es =>
    if ekeyOf e = k then { e with provenance := addProv cid e.provenance } :: es
    else e :: upsertEntity cid k es

/-- Incrementing an existing Relation on a corroborating extraction:
"the existing Relation's corroboration count increments and the new Chunk
id is appended to its provenance set". -/
def bumpRelation (cid : Nat) (r : Relation) : Relation :=
  { r with corroboration := r.corroboration + 1,
           provenance := addProv cid r.provenance }

/-- Modelled from the spec: the Writer's relation upsert, keyed by the
canonical triple — "the Relation is never duplicated"; an absent triple is
created with corroboration count 1. -/
def upsertRelation (cid : Nat) (t : Triple) : List Relation → List Relation
  | [] => [{ src := t.1, rtype := t.2.1, tgt := t.2.2, corroboration := 1,
             provenance := [cid] }]
  | r :: rs =>
    if rkeyOf r = t then bumpRelation cid r :: rs
    else r :: upsertRelation cid t rs

/-- Modelled from the spec: the vector upsert keyed by chunk id —
"embeddings are computed once per chunk ... and upserted keyed by chunk
id". -/
def upsertVector (cid : Nat) (vs : List VecPoint) : List VecPoint :=
  if vs.any (fun v => v.chunkId == cid) then vs else vs ++ [{ chunkId := cid }]

/-- One chunk's extraction result as handed to the Normalizer/Writer: raw
`(name, type)` entity candidates and raw relation triples. -/
structure ChunkResult where
  entities : List (String × String)
  triples : List Triple
deriving DecidableEq

/-- Folding the entity upserts of one chunk write. -/
def writeEnts (cid : Nat) (ks : List EKey) (es : List Entity) : List Entity :=
  ks.foldl (fun a k => upsertEntity cid k a) es

/-- Folding the relation upserts of one chunk write. -/
def writeRels (cid : Nat) (ts : List Triple) (rs : List Relation) : List Relation :=
  ts.foldl (fun a t => upsertRelation cid t a) rs

/-- Modelled from the spec: writing one chunk's extraction result to both
stores — canonicalize every candidate, upsert entities and relations by
their canonical keys, and upsert the chunk's vector point by chunk id. -/
def writeChunk (cid : Nat) (r : ChunkResult) (s : Store) : Store :=
  { entities := writeEnts cid (r.entities.map canonKey) s.entities,
    relations := writeRels cid (r.triples.map canonTriple) s.relations,
    vectors := upsertVector cid s.vectors }

/-- Number of stored entities carrying a given canonical key. -/
def entCount (es : List Entity) (k : EKey) : Nat :=
  es.countP (fun e => ekeyOf e = k)

/-- Number of stored relations carrying a given canonical triple. -/
def relCount (rs : List Relation) (t : Triple) : Nat :=
  rs.countP (fun r => rkeyOf r = t)

/-- Total corroboration recorded for a canonical triple. -/
def corrobOf (rs : List Relation) (t : Triple) : Nat :=
  ((rs.filter (fun r => rkeyOf r = t)).map Relation.corroboration).sum

/-! Compensating cleanup, modelled from the spec. -/

/-- Modelled from the spec: the "sole provenance" test — a record's whole
(non-empty) provenance set lies inside the cancelled Task's document.
`chunkDoc` maps each chunk id to its owning document id. -/
def soleProvB (chunkDoc : Nat → Nat) (doc : Nat) (prov : List Nat) : Bool :=
  !prov.isEmpty && prov.all (fun c => chunkDoc c == doc)

/-- Whether a provenance set references the given document at all. -/
def referencesDoc (chunkDoc : Nat → Nat) (doc : Nat) (prov : List Nat) : Bool :=
  prov.any (fun c => chunkDoc c == doc)

/-- Modelled from the spec: compensating cleanup on cancellation —
"deletes every Entity/Relation/vector point whose sole provenance is the
cancelled Task's document".  A vector point is keyed by one chunk, so its
sole provenance is that chunk's document. -/
def cleanup (chunkDoc : Nat → Nat) (doc : Nat) (s : Store) : Store :=
  { entities := s.entities.filter (fun e => !soleProvB chunkDoc doc e.provenance),
    relations := s.relations.filter (fun r => !soleProvB chunkDoc doc r.provenance),
    vectors := s.vectors.filter (fun v => !soleProvB chunkDoc doc [v.chunkId]) }

/-! Auxiliary definitions and concrete scenarios used by the theorems. -/

/-- Saturation of a count at one: the value a keyed upsert leaves behind. -/
def sat (n : Nat) : Nat := if n = 0 then 1 else n

/-- A client that has started polling task 1 (browser interval ids start
at 1) and whose sidebar still shows the freshly created element. -/
def startedPolling : PollState :=
  { entry := some 1, timerActive := true, el := some createTaskElement }

/-- A status response reporting a finished task together with a truthy
`search_ready` flag (the flag version 1 reads on line 254). -/
def completedReadyResp : PollResp :=
  { ok := true,
    data := { progress := 100, message := "done", details := "",
              status := "completed", search_ready := true } }

/-- A failed (non-2xx) status response. -/
def clearedResp : PollResp :=
  { ok := false,
    data := { progress := 0, message := "", details := "",
              status := "running", search_ready := false } }

/-- A mid-run status payload. -/
def runningData : TaskData :=
  { progress := 10, message := "解析中", details := "batch 1",
    status := "running", search_ready := false }

/-- A successful mid-run status response. -/
def okRunningResp : PollResp := { ok := true, data := runningData }

/-- A status payload reporting cancellation. -/
def cancelledData : TaskData :=
  { progress := 42, message := "stopping", details := "",
    status := "cancelled", search_ready := false }

/-- A chat source whose `page` field is the number 0, which is falsy in
JavaScript. -/
def pageZeroSource : Source :=
  { file_name := "docs/datasheet.pdf", page := some 0, score := 1 }

/-- A chat source with an ordinary non-zero page. -/
def demoSource : Source :=
  { file_name := "corpus/bcd_process.pdf", page := some 3, score := 2 }

/-- A chunk extraction result with two entity candidates and one triple. -/
def demoResult : ChunkResult :=
  { entities := [("LDMOS Device", "device"), ("TSMC", "foundry")],
    triples := [((" ldmos  Device", "device"), "made_by", ("tsmc ", "foundry"))] }

/-- The stores before any write. -/
def emptyStore : Store := { entities := [], relations := [], vectors := [] }

/-- An entity corroborated by chunk 1 of document 1 and chunk 2 of
document 2 (under the chunk-to-document map `fun c => c`). -/
def keptEntity : Entity := { name := "ldmos", etype := "device", provenance := [1, 2] }

/-- A store holding only `keptEntity`, whose provenance mixes two
documents. -/
def mixedStore : Store := { entities := [keptEntity], relations := [], vectors := [] }

/-! Helper lemmas. -/

theorem sat_pos (n : Nat) : 0 < sat n := by
  simp only [sat]; split_ifs <;> omega

theorem sat_sat (n : Nat) : sat (sat n) = sat n := by
  simp only [sat]; split_ifs <;> omega

theorem sat_le_one (n : Nat) (h : n ≤ 1) : sat n = 1 := by
  simp only [sat]; split_ifs <;> omega

theorem ekeyOf_setProv (e : Entity) (p : List Nat) :
    ekeyOf { e with provenance := p } = ekeyOf e := rfl

theorem rkeyOf_bumpRelation (cid : Nat) (r : Relation) :
    rkeyOf (bumpRelation cid r) = rkeyOf r := rfl

theorem corrob_bumpRelation (cid : Nat) (r : Relation) :
    (bumpRelation cid r).corroboration = r.corroboration + 1 := rfl

theorem entCount_upsertEntity_self (cid : Nat) (k : EKey) (es : List Entity) :
    entCount (upsertEntity cid k es) k = sat (entCount es k) := by
  induction es with
  | nil => simp [upsertEntity, entCount, sat, ekeyOf]
  | cons e es ih =>
    by_cases h : ekeyOf e = k
    · simp [upsertEntity, h, entCount, List.countP_cons, ekeyOf_setProv, sat]
    · simp only [upsertEntity, h, if_false]
      simp [entCount, List.countP_cons, h, sat] at ih ⊢
      omega

theorem entCount_upsertEntity_ne (cid : Nat) (k k2 : EKey) (es : List Entity)
    (h : k2 ≠ k) :
    entCount (upsertEntity cid k es) k2 = entCount es k2 := by
  induction es with
  | nil => simp [upsertEntity, entCount, ekeyOf, Ne.symm h]
  | cons e es ih =>
    by_cases he : ekeyOf e = k
    · have hne : ¬ (ekeyOf e = k2) := by rw [he]; exact Ne.symm h
      simp [upsertEntity, he, entCount, List.countP_cons, ekeyOf_setProv, hne]
    · simp only [upsertEntity, he, if_false]
      simp [entCount, List.countP_cons] at ih ⊢
      omega

theorem entCount_writeEnts (cid : Nat) (ks : List EKey) (es : List Entity) (k : EKey) :
    entCount (writeEnts cid ks es) k =
      if k ∈ ks then sat (entCount es k) else entCount es k := by
  induction ks generalizing es with
  | nil => simp [writeEnts]
  | cons k0 ks ih =>
    have hw : writeEnts cid (k0 :: ks) es = writeEnts cid ks (upsertEntity cid k0 es) := rfl
    rw [hw, ih]
    by_cases h0 : k0 = k
    · subst h0
      rw [entCount_upsertEntity_self]
      by_cases hk : k0 ∈ ks <;> simp [hk, sat_sat]
    · have h1 : ¬ k = k0 := fun hh => h0 hh.symm
      rw [entCount_upsertEntity_ne _ _ _ _ (fun hh => h0 hh.symm)]
      by_cases hk : k ∈ ks <;> simp [hk, h1]

theorem relCount_upsertRelation_self (cid : Nat) (t : Triple) (rs : List Relation) :
    relCount (upsertRelation cid t rs) t = sat (relCount rs t) := by
  induction rs with
  | nil => simp [upsertRelation, relCount, sat, rkeyOf]
  | cons r rs ih =>
    by_cases h : rkeyOf r = t
    · simp [upsertRelation, h, relCount, List.countP_cons, rkeyOf_bumpRelation, sat]
    · simp only [upsertRelation, h, if_false]
      simp [relCount, List.countP_cons, h, sat] at ih ⊢
      omega

theorem relCount_upsertRelation_ne (cid : Nat) (t t2 : Triple) (rs : List Relation)
    (h : t2 ≠ t) :
    relCount (upsertRelation cid t rs) t2 = relCount rs t2 := by
  induction rs with
  | nil => simp [upsertRelation, relCount, rkeyOf, Ne.symm h]
  | cons r rs ih =>
    by_cases hr : rkeyOf r = t
    · have hne : ¬ (rkeyOf r = t2) := by rw [hr]; exact Ne.symm h
      simp [upsertRelation, hr, relCount, List.countP_cons, rkeyOf_bumpRelation, hne]
    · simp only [upsertRelation, hr, if_false]
      simp [relCount, List.countP_cons] at ih ⊢
      omega

theorem relCount_writeRels (cid : Nat) (ts : List Triple) (rs : List Relation) (t : Triple) :
    relCount (writeRels cid ts rs) t =
      if t ∈ ts then sat (relCount rs t) else relCount rs t := by
  induction ts generalizing rs with
  | nil => simp [writeRels]
  | cons t0 ts ih =>
    have hw : writeRels cid (t0 :: ts) rs = writeRels cid ts (upsertRelation cid t0 rs) := rfl
    rw [hw, ih]
    by_cases h0 : t0 = t
    · subst h0
      rw [relCount_upsertRelation_self]
      by_cases hk : t0 ∈ ts <;> simp [hk, sat_sat]
    · have h1 : ¬ t = t0 := fun hh => h0 hh.symm
      rw [relCount_upsertRelation_ne _ _ _ _ (fun hh => h0 hh.symm)]
      by_cases hk : t ∈ ts <;> simp [hk, h1]

theorem corrobOf_upsertRelation_self (cid : Nat) (t : Triple) (rs : List Relation) :
    corrobOf (upsertRelation cid t rs) t = corrobOf rs t + 1 := by
  induction rs with
  | nil => simp [upsertRelation, corrobOf, rkeyOf]
  | cons r rs ih =>
    by_cases h : rkeyOf r = t
    · have hkey : rkeyOf (bumpRelation cid r) = t := by
        rw [rkeyOf_bumpRelation]; exact h
      simp [upsertRelation, h, corrobOf, List.filter_cons, hkey, corrob_bumpRelation]
      omega
    · simp only [upsertRelation, h, if_false]
      simp [corrobOf, List.filter_cons, h] at ih ⊢
      omega

theorem corrobOf_upsertRelation_ne (cid : Nat) (t t2 : Triple) (rs : List Relation)
    (h : t2 ≠ t) :
    corrobOf (upsertRelation cid t rs) t2 = corrobOf rs t2 := by
  induction rs with
  | nil => simp [upsertRelation, corrobOf, rkeyOf, Ne.symm h]
  | cons r rs ih =>
    by_cases hr : rkeyOf r = t
    · have hne : ¬ (rkeyOf (bumpRelation cid r) = t2) := by
        rw [rkeyOf_bumpRelation, hr]; exact Ne.symm h
      have hne2 : ¬ (rkeyOf r = t2) := by rw [hr]; exact Ne.symm h
      simp [upsertRelation, hr, corrobOf, List.filter_cons, hne, hne2, Ne.symm h]
    · simp only [upsertRelation, hr, if_false]
      simp [corrobOf, List.filter_cons] at ih ⊢
      by_cases h2 : rkeyOf r = t2 <;> simp [h2, ih]

theorem corrobOf_writeRels (cid : Nat) (ts : List Triple) (rs : List Relation) (t : Triple) :
    corrobOf (writeRels cid ts rs) t =
      corrobOf rs t + ts.countP (fun x => x = t) := by
  induction ts generalizing rs with
  | nil => simp [writeRels]
  | cons t0 ts ih =>
    have hw : writeRels cid (t0 :: ts) rs = writeRels cid ts (upsertRelation cid t0 rs) := rfl
    rw [hw, ih, List.countP_cons]
    by_cases h0 : t0 = t
    · subst h0
      rw [corrobOf_upsertRelation_self]
      simp; omega
    · rw [corrobOf_upsertRelation_ne _ _ _ _ (fun hh => h0 hh.symm)]
      simp [h0]

theorem length_upsertRelation_present (cid : Nat) (t : Triple) :
    ∀ rs : List Relation, 0 < relCount rs t →
      (upsertRelation cid t rs).length = rs.length := by
  intro rs
  induction rs with
  | nil => intro h; simp [relCount] at h
  | cons r rs ih =>
    intro h
    by_cases hr : rkeyOf r = t
    · simp [upsertRelation, hr]
    · have h2 : 0 < relCount rs t := by
        simpa [relCount, List.countP_cons, hr] using h
      simp [upsertRelation, hr, ih h2]

theorem relCount_upsertRelation_pos (cid : Nat) (t t2 : Triple) (rs : List Relation)
    (h : 0 < relCount rs t2) :
    0 < relCount (upsertRelation cid t rs) t2 := by
  by_cases he : t2 = t
  · subst he
    rw [relCount_upsertRelation_self]
    exact sat_pos _
  · rw [relCount_upsertRelation_ne _ _ _ _ he]
    exact h

theorem length_writeRels_present (cid : Nat) :
    ∀ (ts : List Triple) (rs : List Relation),
      (∀ t ∈ ts, 0 < relCount rs t) →
      (writeRels cid ts rs).length = rs.length := by
  intro ts
  induction ts with
  | nil => intro rs _; rfl
  | cons t0 ts ih =>
    intro rs h
    have hw : writeRels cid (t0 :: ts) rs = writeRels cid ts (upsertRelation cid t0 rs) := rfl
    rw [hw, ih _ ?_, length_upsertRelation_present cid t0 rs (h t0 (by simp))]
    intro t ht
    exact relCount_upsertRelation_pos _ _ _ _ (h t (by simp [ht]))

theorem countP_eq_one_of_nodup {α : Type} [DecidableEq α] (l : List α) (a : α)
    (hnd : l.Nodup) (hmem : a ∈ l) :
    l.countP (fun x => x = a) = 1 := by
  induction l with
  | nil => simp at hmem
  | cons b l ih =>
    rcases List.nodup_cons.mp hnd with ⟨hb, hl⟩
    rcases List.mem_cons.mp hmem with hba | hmem2
    · subst hba
      have hz : l.countP (fun x => x = a) = 0 := by
        rw [List.countP_eq_zero]
        intro x hx
        simp only [decide_eq_true_eq]
        intro hxa
        exact hb (hxa ▸ hx)
      simp [List.countP_cons, hz]
    · have hba : ¬ (b = a) := fun hh => hb (hh ▸ hmem2)
      simp [List.countP_cons, hba, ih hl hmem2]

theorem runEvents_append (t : OrchTask) (l1 l2 : List Nat) :
    runEvents t (l1 ++ l2) = runEvents (runEvents t l1) l2 := by
  induction l1 generalizing t with
  | nil => rfl
  | cons c cs ih => simp [runEvents, ih]

theorem total_recordCompletion (t : OrchTask) (c : Nat) :
    (recordCompletion t c).total = t.total := by
  simp only [recordCompletion]; split_ifs <;> rfl

theorem total_runEvents (t : OrchTask) (l : List Nat) :
    (runEvents t l).total = t.total := by
  induction l generalizing t with
  | nil => rfl
  | cons c cs ih => simp [runEvents, ih, total_recordCompletion]

theorem length_le_recordCompletion (t : OrchTask) (c : Nat) :
    t.completedChunks.length ≤ (recordCompletion t c).completedChunks.length := by
  simp only [recordCompletion]; split_ifs <;> simp

theorem length_le_runEvents (t : OrchTask) (l : List Nat) :
    t.completedChunks.length ≤ (runEvents t l).completedChunks.length := by
  induction l generalizing t with
  | nil => exact le_refl _
  | cons c cs ih =>
    exact le_trans (length_le_recordCompletion t c) (ih (recordCompletion t c))

theorem progressOf_le (t1 t2 : OrchTask) (htot : t2.total = t1.total)
    (hlen : t1.completedChunks.length ≤ t2.completedChunks.length) :
    progressOf t1 ≤ progressOf t2 := by
  simp only [progressOf, htot]
  split_ifs with h
  · exact le_refl 0
  · exact Nat.div_le_div_right (Nat.mul_le_mul_right 100 hlen)

/-! Claim theorems. -/

/-- C1: the claim says that once a status response reports `completed`,
`error` or `cancelled` the client clears the task's polling interval and
issues no further `/api/task/{id}` requests.  Version 2 does so, but in
version 1 a completed response carrying a truthy `search_ready` flag makes
line 254 read the undeclared `taskIdToReadyState`, the thrown
`ReferenceError` is swallowed by the `catch` before the terminal-status
check runs, and the interval survives: the client keeps the entry, keeps
the timer and keeps issuing requests on every later tick. -/
theorem pollTick1_keeps_polling_after_completed_search_ready :
    (pollTick1 startedPolling completedReadyResp).timerActive = true ∧
    (pollTick1 startedPolling completedReadyResp).entry = some 1 ∧
    requestsIssued pollTick1 startedPolling
      (List.replicate 3 completedReadyResp) = 3 ∧
    (pollTick2 startedPolling completedReadyResp).timerActive = false := by
  decide

/-- C2 counterexample: a successful chat response whose single source has
page number 0 (falsy in `src.page ? ... : ''`) is rendered with an empty
page label, so not every rendered source shows its page number. -/
theorem addMessage_page_zero_renders_no_page :
    ¬ ∀ rs ∈ ((addMessage "answer" [pageZeroSource]).sourcesShown.getD []),
        rs.pageShown ≠ "" := by
  decide

/-- C2 amended: for every successful chat response with a non-empty source
list, the answer text is displayed, a source list holding the first (up
to) three sources is displayed with it, and each rendered source shows
its file base name and shows its page number exactly when the page value
is present and non-zero. -/
theorem addMessage_renders_answer_and_sources (text : String) (sources : List Source)
    (hne : sources ≠ []) :
    (addMessage text sources).answerShown = text ∧
    (addMessage text sources).sourcesShown = some ((sources.take 3).map renderSource) ∧
    ∀ src ∈ sources.take 3,
      (renderSource src).filenameShown = basename src.file_name ∧
      ((renderSource src).pageShown ≠ "" ↔ ∃ p, src.page = some p ∧ p ≠ 0) := by
  refine ⟨rfl, ?_, ?_⟩
  · have hlen : sources.length > 0 := List.length_pos.mpr hne
    simp [addMessage, hlen]
  · intro src _
    refine ⟨rfl, ?_⟩
    simp only [renderSource]
    cases hp : src.page with
    | none => simp
    | some p =>
      by_cases hz : p = 0
      · simp [hz]
      · have hb : (p != 0) = true := by simpa using hz
        simp only [hb, if_true]
        constructor
        · intro _; exact ⟨p, rfl, hz⟩
        · intro _
          intro hcontra
          have hlen2 := congrArg String.length hcontra
          simp [String.length_append] at hlen2
          exact absurd hlen2.1 (by decide)

/-- C2 witness: a concrete chat answer with one source is rendered with
the answer text shown. -/
theorem addMessage_renders_answer_and_sources_witness :
    ([demoSource] ≠ ([] : List Source)) ∧
    (addMessage "BVDSS is 60V" [demoSource]).answerShown = "BVDSS is 60V" :=
  ⟨by decide,
   (addMessage_renders_answer_and_sources "BVDSS is 60V" [demoSource] (by decide)).1⟩

/-- C3: `cancelTask` only issues a POST to `/api/task/{taskId}/cancel` and
leaves the client state — displayed progress, message, status, the whole
poll state — unchanged; the cancelled state is applied to the UI only by
`updateTaskUI` when a later poll reports `cancelled`, and at that point
the cancel button is removed (in both versions). -/
theorem cancelTask_only_posts_cancel (taskId : String) (s : PollState)
    (e : TaskEl) (d : TaskData) (hc : d.status = "cancelled") :
    (cancelTask taskId s).2 = s ∧
    (cancelTask taskId s).1 =
      { method := "POST", url := "/api/task/" ++ taskId ++ "/cancel" } ∧
    (applyTaskData1 e d).cancelBtn = false ∧
    (applyTaskData2 e d).cancelBtn = false := by
  refine ⟨rfl, rfl, ?_, ?_⟩ <;> (simp only [applyTaskData1, applyTaskData2, hc]; rfl)

/-- C3 witness: cancelling task `t1` in a concrete polling state leaves
the state unchanged, and a cancelled status response removes the cancel
button. -/
theorem cancelTask_only_posts_cancel_witness :
    cancelledData.status = "cancelled" ∧
    (cancelTask "t1" startedPolling).2 = startedPolling ∧
    (applyTaskData1 createTaskElement cancelledData).cancelBtn = false :=
  ⟨rfl,
   (cancelTask_only_posts_cancel "t1" startedPolling createTaskElement cancelledData rfl).1,
   (cancelTask_only_posts_cancel "t1" startedPolling createTaskElement cancelledData rfl).2.2.1⟩

/-- C4 counterexample: the empty file selection has no qualifying file,
yet `handleFiles` returns at `if (!files.length) return;` without alerting
the user. -/
theorem handleFiles_empty_selection_no_alert :
    (∀ f ∈ ([] : List JSFile), f.ftype ≠ "application/pdf") ∧
    (handleFiles []).alerted = false ∧ (handleFiles []).uploaded = none := by
  decide

/-- C4 amended: an upload request is issued if and only if some selected
file has MIME type `application/pdf`; the request contains exactly the
PDF files of the selection; and the alert fires exactly when the selection
is non-empty and contains no PDF — an empty selection is ignored
silently. -/
theorem handleFiles_pdf_filter (files : List JSFile) :
    ((handleFiles files).uploaded.isSome = true ↔
      ∃ f ∈ files, f.ftype = "application/pdf") ∧
    (handleFiles files).uploaded.getD (files.filter (fun f => f.ftype == "application/pdf"))
      = files.filter (fun f => f.ftype == "application/pdf") ∧
    ((handleFiles files).alerted = true ↔
      files ≠ [] ∧ ∀ f ∈ files, f.ftype ≠ "application/pdf") := by
  by_cases hnil : files = []
  · subst hnil; refine ⟨?_, ?_, ?_⟩ <;> simp [handleFiles]
  · have hlen : ¬ files.length = 0 := by simpa [List.length_eq_zero] using hnil
    by_cases hp : files.filter (fun f => f.ftype == "application/pdf") = []
    · have hall : ∀ f ∈ files, f.ftype ≠ "application/pdf" := by
        intro f hf hcontra
        have hmem : f ∈ files.filter (fun f => f.ftype == "application/pdf") := by
          simp [List.mem_filter, hf, hcontra]
        simp [hp] at hmem
      have hH : handleFiles files = { uploaded := none, alerted := true } := by
        simp [handleFiles, hlen, List.isEmpty_iff, hp]
      refine ⟨?_, ?_, ?_⟩
      · rw [hH]
        constructor
        · intro h; exact absurd h (by decide)
        · rintro ⟨f, hf, hpdf⟩; exact absurd hpdf (hall f hf)
      · rw [hH]; simp [hp]
      · rw [hH]
        exact ⟨fun _ => ⟨hnil, hall⟩, fun _ => rfl⟩
    · have hex : ∃ f ∈ files, f.ftype = "application/pdf" := by
        rcases List.exists_mem_of_ne_nil _ hp with ⟨f, hf⟩
        rcases List.mem_filter.mp hf with ⟨hmem, hpdf⟩
        exact ⟨f, hmem, by simpa using hpdf⟩
      have hH : handleFiles files =
          { uploaded := some (files.filter (fun f => f.ftype == "application/pdf")),
            alerted := false } := by
        simp [handleFiles, hlen, List.isEmpty_iff, hp]
      refine ⟨?_, ?_, ?_⟩
      · rw [hH]; simp [hex]
      · rw [hH]; simp
      · rw [hH]
        simp only [Bool.false_eq_true, false_iff]
        rintro ⟨-, hall2⟩
        rcases hex with ⟨f, hf, hpdf⟩
        exact hall2 f hf hpdf

/-- C5: within one Task the progress values exposed to the external poller
are monotonically non-decreasing — whatever order the chunk-completion
events arrive in, a poll taken after `i` events never reports more than a
poll taken after `j ≥ i` events, because the completed-chunk count only
grows and the total is fixed. -/
theorem progress_monotone (t : OrchTask) (evs : List Nat) (i j : Nat) (hij : i ≤ j) :
    progressOf (runEvents t (evs.take i)) ≤ progressOf (runEvents t (evs.take j)) := by
  have hsplit : evs.take i ++ (evs.take j).drop i = evs.take j := by
    have h1 : (evs.take j).take i = evs.take i := by
      rw [List.take_take, Nat.min_eq_left hij]
    calc evs.take i ++ (evs.take j).drop i
        = (evs.take j).take i ++ (evs.take j).drop i := by rw [h1]
      _ = evs.take j := List.take_append_drop _ _
  have hrun : runEvents t (evs.take j)
      = runEvents (runEvents t (evs.take i)) ((evs.take j).drop i) := by
    conv_lhs => rw [← hsplit]
    rw [runEvents_append]
  rw [hrun]
  exact progressOf_le _ _ (total_runEvents _ _) (length_le_runEvents _ _)

/-- C5 witness: with 4 chunks and completions arriving out of order
(chunk 2, then 0, then 1), the progress observed after 1 event is at most
the progress observed after 3 events. -/
theorem progress_monotone_witness :
    1 ≤ 3 ∧
    progressOf (runEvents { total := 4, completedChunks := [] } ([2, 0, 1].take 1)) ≤
      progressOf (runEvents { total := 4, completedChunks := [] } ([2, 0, 1].take 3)) :=
  ⟨by decide,
   progress_monotone { total := 4, completedChunks := [] } [2, 0, 1] 1 3 (by decide)⟩

/-- C6: writing the same chunk's extraction result twice into stores whose
keys are unique leaves exactly one Entity per canonical `(name, type)`
pair and exactly one Relation per canonical triple; the second write
increments the corroboration count of every triple of the result by one
and creates no new Relation record. -/
theorem writeChunk_twice_idempotent (s : Store) (cid : Nat) (r : ChunkResult)
    (hwfE : ∀ k, entCount s.entities k ≤ 1)
    (hwfR : ∀ t, relCount s.relations t ≤ 1)
    (hnd : (r.triples.map canonTriple).Nodup) :
    (∀ k ∈ r.entities.map canonKey,
        entCount (writeChunk cid r (writeChunk cid r s)).entities k = 1) ∧
    (∀ t ∈ r.triples.map canonTriple,
        relCount (writeChunk cid r (writeChunk cid r s)).relations t = 1) ∧
    (∀ t ∈ r.triples.map canonTriple,
        corrobOf (writeChunk cid r (writeChunk cid r s)).relations t
          = corrobOf (writeChunk cid r s).relations t + 1) ∧
    (writeChunk cid r (writeChunk cid r s)).relations.length
      = (writeChunk cid r s).relations.length := by
  have hE2 : (writeChunk cid r (writeChunk cid r s)).entities
      = writeEnts cid (r.entities.map canonKey)
          (writeEnts cid (r.entities.map canonKey) s.entities) := rfl
  have hR1 : (writeChunk cid r s).relations
      = writeRels cid (r.triples.map canonTriple) s.relations := rfl
  have hR2 : (writeChunk cid r (writeChunk cid r s)).relations
      = writeRels cid (r.triples.map canonTriple)
          (writeRels cid (r.triples.map canonTriple) s.relations) := rfl
  refine ⟨?_, ?_, ?_, ?_⟩
  · intro k hk
    rw [hE2, entCount_writeEnts, entCount_writeEnts]
    simp only [hk, if_true, sat_sat]
    exact sat_le_one _ (hwfE k)
  · intro t ht
    rw [hR2, relCount_writeRels, relCount_writeRels]
    simp only [ht, if_true, sat_sat]
    exact sat_le_one _ (hwfR t)
  · intro t ht
    rw [hR2, hR1, corrobOf_writeRels, countP_eq_one_of_nodup _ _ hnd ht]
  · rw [hR2, hR1]
    apply length_writeRels_present
    intro t ht
    rw [relCount_writeRels]
    simp only [ht, if_true]
    exact sat_pos _

/-- C6 witness: writing `demoResult` twice as chunk 7 into empty stores
leaves one entity under the canonical key of "LDMOS Device" and bumps the
triple's corroboration count from its value after the first write by
exactly one. -/
theorem writeChunk_twice_idempotent_witness :
    entCount (writeChunk 7 demoResult (writeChunk 7 demoResult emptyStore)).entities
      (canonKey ("LDMOS Device", "device")) = 1 ∧
    corrobOf (writeChunk 7 demoResult (writeChunk 7 demoResult emptyStore)).relations
      (canonTriple ((" ldmos  Device", "device"), "made_by", ("tsmc ", "foundry")))
      = corrobOf (writeChunk 7 demoResult emptyStore).relations
          (canonTriple ((" ldmos  Device", "device"), "made_by", ("tsmc ", "foundry"))) + 1 := by
  have hmemE : canonKey ("LDMOS Device", "device") ∈ demoResult.entities.map canonKey :=
    List.mem_map.mpr ⟨("LDMOS Device", "device"), by decide, rfl⟩
  have hmemT : canonTriple ((" ldmos  Device", "device"), "made_by", ("tsmc ", "foundry"))
      ∈ demoResult.triples.map canonTriple :=
    List.mem_map.mpr ⟨((" ldmos  Device", "device"), "made_by", ("tsmc ", "foundry")),
      by decide, rfl⟩
  have h := writeChunk_twice_idempotent emptyStore 7 demoResult
    (fun k => by simp [entCount, emptyStore])
    (fun t => by simp [relCount, emptyStore])
    (by decide)
  exact ⟨h.1 _ hmemE, h.2.2.1 _ hmemT⟩

/-- C7 counterexample: cancel document 2 while `keptEntity` is corroborated
by a chunk of document 1 and a chunk of document 2.  Its sole provenance is
not document 2, so cleanup keeps it — and the surviving entity still
references the cancelled document, refuting "zero Entities ... reference
that Task's document". -/
theorem cleanup_leaves_reference_to_cancelled_doc :
    ((cleanup (fun c => c) 2 mixedStore).entities.any
        (fun e => referencesDoc (fun c => c) 2 e.provenance)) = true := by
  decide

/-- C7 amended: after compensating cleanup, zero Entities, Relations or
vector points whose sole provenance is the cancelled Task's document
remain (every vector point of the document is removed), while records
also corroborated by other documents survive. -/
theorem cleanup_deletes_sole_provenance (chunkDoc : Nat → Nat) (doc : Nat) (s : Store) :
    (∀ e ∈ (cleanup chunkDoc doc s).entities, soleProvB chunkDoc doc e.provenance = false) ∧
    (∀ r ∈ (cleanup chunkDoc doc s).relations, soleProvB chunkDoc doc r.provenance = false) ∧
    (∀ v ∈ (cleanup chunkDoc doc s).vectors, chunkDoc v.chunkId ≠ doc) ∧
    (∀ e ∈ s.entities, soleProvB chunkDoc doc e.provenance = false →
        e ∈ (cleanup chunkDoc doc s).entities) := by
  refine ⟨?_, ?_, ?_, ?_⟩
  · intro e he
    have h := (List.mem_filter.mp he).2
    simpa using h
  · intro r hr
    have h := (List.mem_filter.mp hr).2
    simpa using h
  · intro v hv
    have h := (List.mem_filter.mp hv).2
    simp [soleProvB] at h
    simpa using h
  · intro e he hfalse
    exact List.mem_filter.mpr ⟨he, by simp [hfalse]⟩

/-- C7 witness: the mixed-provenance entity survives the cleanup of
document 2. -/
theorem cleanup_deletes_sole_provenance_witness :
    keptEntity ∈ (cleanup (fun c => c) 2 mixedStore).entities :=
  (cleanup_deletes_sole_provenance (fun c => c) 2 mixedStore).2.2.2
    keptEntity (by decide) (by decide)

/-- C8: at most one polling interval per task id — `startPolling` is a
no-op while a truthy entry exists; a non-ok response clears the interval
but keeps the entry, and from then on every `startPolling` call (any
sequence of them, in either version's guard, which is the same code) is a
no-op, so polling for the task can never restart and no further requests
are issued. -/
theorem startPolling_single_interval_invariant (s : PollState) (r : PollResp)
    (tid : Nat) (hentry : s.entry = some tid) (hid : tid ≠ 0)
    (hact : s.timerActive = true) (hok : r.ok = false) :
    (∀ f, startPolling f s = s) ∧
    (pollTick1 s r).entry = some tid ∧
    (pollTick1 s r).timerActive = false ∧
    (pollTick2 s r).entry = some tid ∧
    (pollTick2 s r).timerActive = false ∧
    (∀ fs : List Nat,
        fs.foldl (fun st f => startPolling f st) (pollTick1 s r) = pollTick1 s r) ∧
    (∀ resps : List PollResp, requestsIssued pollTick1 (pollTick1 s r) resps = 0) := by
  have htr : entryTruthy s.entry = true := by
    rw [hentry]; simp [entryTruthy, hid]
  have hsp : ∀ f, startPolling f s = s := by
    intro f; simp [startPolling, htr]
  have h1 : pollTick1 s r = { s with timerActive := false } := by
    simp [pollTick1, hact, hok]
  have h2 : pollTick2 s r = { s with timerActive := false } := by
    simp [pollTick2, hact, hok]
  refine ⟨hsp, ?_, ?_, ?_, ?_, ?_, ?_⟩
  · rw [h1]; exact hentry
  · rw [h1]
  · rw [h2]; exact hentry
  · rw [h2]
  · intro fs
    have htr2 : entryTruthy (pollTick1 s r).entry = true := by
      rw [h1]; simpa [entryTruthy, hid] using htr
    induction fs with
    | nil => rfl
    | cons f fs ih =>
      have hstep : startPolling f (pollTick1 s r) = pollTick1 s r := by
        simp [startPolling, htr2]
      simpa [hstep] using ih
  · intro resps
    cases resps with
    | nil => rfl
    | cons a l => simp [requestsIssued, h1]

/-- C8 witness: task 1 polling in the started state; a non-ok response
leaves the entry in place, later `startPolling` calls change nothing and
no further requests go out. -/
theorem startPolling_single_interval_invariant_witness :
    startedPolling.entry = some 1 ∧
    startPolling 5 startedPolling = startedPolling ∧
    (pollTick1 startedPolling clearedResp).entry = some 1 ∧
    requestsIssued pollTick1 (pollTick1 startedPolling clearedResp)
      [clearedResp, clearedResp] = 0 := by
  have h := startPolling_single_interval_invariant startedPolling clearedResp 1
    rfl (by decide) rfl rfl
  exact ⟨rfl, h.1 5, h.2.1, h.2.2.2.2.2.2 [clearedResp, clearedResp]⟩

/-- C9: both versions of `updateTaskUI` render the reported progress value
verbatim — `${data.progress}%` becomes both the bar width and the percent
text for every value, positive, negative or beyond 100; no branch clamps
it to the 0-100 range of the interface contract. -/
theorem updateTaskUI_renders_progress_verbatim (e : TaskEl) (d : TaskData) :
    (applyTaskData1 e d).fillWidth = toString d.progress ++ "%" ∧
    (applyTaskData1 e d).percentText = toString d.progress ++ "%" ∧
    (applyTaskData2 e d).fillWidth = toString d.progress ++ "%" ∧
    (applyTaskData2 e d).percentText = toString d.progress ++ "%" := by
  refine ⟨?_, ?_, ?_, ?_⟩ <;>
    (simp only [applyTaskData1, applyTaskData2]; split_ifs <;> rfl)

/-- C10 counterexample: on a `cancelled` response the two `updateTaskUI`
versions leave the task element in different final states — version 1
turns the bar grey, overwrites the message with `已取消` and schedules
removal of the element; version 2 turns the bar red and keeps the
message. -/
theorem updateTaskUI_versions_disagree_on_cancelled :
    applyTaskData1 createTaskElement cancelledData ≠
    applyTaskData2 createTaskElement cancelledData := by
  decide

/-- C10 amended: the two client versions agree on the rendered progress
width, percent text, details and cancel-button removal, and — for
responses whose `search_ready` flag is falsy — their poll callbacks stop
polling under exactly the same conditions (same timer state and same map
entry); they differ only in terminal-status styling, message overrides,
element removal and the version-1 `search_ready` path. -/
theorem client_versions_agree_modulo_styling (s : PollState) (r : PollResp)
    (e : TaskEl) (d : TaskData) (hsr : r.data.search_ready = false) :
    (pollTick1 s r).timerActive = (pollTick2 s r).timerActive ∧
    (pollTick1 s r).entry = (pollTick2 s r).entry ∧
    (applyTaskData1 e d).fillWidth = (applyTaskData2 e d).fillWidth ∧
    (applyTaskData1 e d).percentText = (applyTaskData2 e d).percentText ∧
    (applyTaskData1 e d).details = (applyTaskData2 e d).details ∧
    (applyTaskData1 e d).cancelBtn = (applyTaskData2 e d).cancelBtn := by
  refine ⟨?_, ?_, ?_, ?_, ?_, ?_⟩
  · simp [pollTick1, pollTick2, hsr]; split_ifs <;> rfl
  · simp [pollTick1, pollTick2, hsr]; split_ifs <;> rfl
  · simp only [applyTaskData1, applyTaskData2]; split_ifs <;> simp_all
  · simp only [applyTaskData1, applyTaskData2]; split_ifs <;> simp_all
  · simp only [applyTaskData1, applyTaskData2]; split_ifs <;> simp_all
  · simp only [applyTaskData1, applyTaskData2]; split_ifs <;> simp_all

/-- C10 witness: on a concrete mid-run response without `search_ready`,
both versions keep the timer in the same state and agree on the cancel
button. -/
theorem client_versions_agree_modulo_styling_witness :
    okRunningResp.data.search_ready = false ∧
    (pollTick1 startedPolling okRunningResp).timerActive
      = (pollTick2 startedPolling okRunningResp).timerActive ∧
    (applyTaskData1 createTaskElement runningData).cancelBtn
      = (applyTaskData2 createTaskElement runningData).cancelBtn := by
  have h := client_versions_agree_modulo_styling startedPolling okRunningResp
    createTaskElement runningData rfl
  exact ⟨rfl, h.1, h.2.2.2.2.2⟩

end ICDB
